import Mathlib

/-!
# influScope load test: `loadtest/script.js`

A shallow embedding of the k6 load-test script.  The script consists of the
exported `options` constant (the stage list) and the exported default
iteration function, which calls three primitives of the load-generation
runtime: `http.get`, `check` and `sleep`.

* Calls to the runtime are recorded, in order, in a trace of `Effect`s.
* The target host is a parameter: a function from the requested URL to the
  outcome of the request.
* JavaScript numbers are modelled by rationals (`timings.duration`, in
  milliseconds; every finite double is a rational and `<` on finite doubles is
  the order of the rationals) and integers (`status`, stage targets).
-/

namespace K6

/-- The `timings` object of a response; `duration` is in milliseconds. -/
structure Timings where
  duration : ℚ
deriving DecidableEq

/-- The result of one request.  `status` is `none` when the result carries no
HTTP status (then `r.status === 200` is false); `error` is set on a network
failure such as a timeout or a refused connection. -/
structure Response where
  status : Option Int
  timings : Timings
  body : String
  error : Option String
deriving DecidableEq

/-- One named assertion outcome. -/
structure CheckResult where
  name : String
  passed : Bool
deriving DecidableEq

/-- The second argument of `check`: the object literal, as the ordered list of
its `name: predicate` properties (string keys keep insertion order). -/
abbrev CheckSet := List (String × (Response → Bool))

/-- One call made to the runtime. -/
inductive Effect where
  | httpGet (url : String)
  | check (val : Response) (sets : CheckSet)
  | sleep (seconds : ℚ)

/-- The target host as seen by one request: the response for a URL, or the
message of an exception thrown out of the request. -/
abbrev Host := String → Except String Response

/-- Script code: reads the host, appends to the trace of calls, may throw. -/
abbrev Runtime := ReaderT Host (StateT (List Effect) (Except String))

/-- Runs script code against a host from the empty trace: the thrown exception,
or the returned value with the calls made in order. -/
def run {α : Type} (m : Runtime α) (host : Host) : Except String (α × List Effect) :=
  (m host).run []

/-- Modelled from the spec: the Check Engine (`check` of the runtime, not part
of the repository).  It runs every predicate against the result regardless of
earlier failures and emits one CheckResult per predicate, in order. -/
def evaluate (val : Response) (sets : CheckSet) : List CheckResult :=
  sets.map fun c => { name := c.1, passed := c.2 val }

/-- The `http.get` primitive: records the call and returns what the host
answers; an exception of the request propagates. -/
def http.get (url : String) : Runtime Response := do
  modify fun tr => tr ++ [Effect.httpGet url]
  match (← read) url with
  | .ok r => pure r
  | .error e => throw e

/-- The `check` primitive: records the call; its value is whether all
predicates passed. -/
def check (val : Response) (sets : CheckSet) : Runtime Bool := do
  modify fun tr => tr ++ [Effect.check val sets]
  pure ((evaluate val sets).all fun c => c.passed)

/-- The `sleep` primitive: records the call. -/
def sleep (seconds : ℚ) : Runtime Unit :=
  modify fun tr => tr ++ [Effect.sleep seconds]

/-- The check results a call emits (none for calls other than `check`). -/
def Effect.emitted : Effect → List CheckResult
  | .check val sets => evaluate val sets
  | _ => []

/-- All check results emitted along a trace, in order. -/
def emittedChecks (tr : List Effect) : List CheckResult :=
  (tr.map Effect.emitted).flatten

/-- Number of HTTP requests issued along a trace. -/
def requestCount : List Effect → Nat
  | [] => 0
  | .httpGet _ :: tr => requestCount tr + 1
  | _ :: tr => requestCount tr

/-- The outcome recorded under a check name, if any. -/
def passedOf (name : String) : List CheckResult → Option Bool
  | [] => none
  | c :: cs => if c.name = name then some c.passed else passedOf name cs

/-- A stage as written in the script: a duration string and a target. -/
structure StageOption where
  duration : String
  target : Int

/-- The exported `options` object. -/
structure Options where
  stages : List StageOption

/-- A stage of the data model: a duration in seconds and the concurrency
target to reach linearly by the end of the stage. -/
structure Stage where
  duration : ℚ
  target : Int
deriving DecidableEq

/-- Modelled from the spec: the duration syntax of the stage list, which the
runtime parses.  The spec writes the stages of the script as `10s`, `30s`,
`10s` and reads them as seconds: a non-empty run of decimal digits followed by
the unit `s`.  Anything else is rejected. -/
def parseDuration (s : String) : Option ℚ :=
  let (digits, unit) := s.data.span Char.isDigit
  if digits = [] then none
  else if unit = ['s'] then
    some ((digits.foldl (fun n c => 10 * n + (c.toNat - 48)) 0 : Nat) : ℚ)
  else none

/-- One stage of `options.stages` with its duration parsed. -/
def parseStage (o : StageOption) : Option Stage :=
  match parseDuration o.duration with
  | some d => some { duration := d, target := o.target }
  | none => none

/-- The stage list of `options.stages`, or `none` if a duration is malformed. -/
def parseStages : List StageOption → Option (List Stage)
  | [] => some []
  | o :: os =>
    match parseStage o, parseStages os with
    | some s, some ss => some (s :: ss)
    | _, _ => none

/-- Modelled from the spec: the fail-fast setup check of the Run Controller
(section 4.6): a stage list is invalid when a stage has a negative duration or
a negative target. -/
def validateStages (stages : List Stage) : Except String Unit :=
  if stages.any fun s => decide (s.duration < 0) || decide (s.target < 0) then
    .error "invalid stage list"
  else .ok ()

/-- Clamps `x` to the interval `[lo, hi]`. -/
def clamp (lo hi x : Int) : Int := max lo (min hi x)

/-- Modelled from the spec: the interpolation formula of the Scheduler (section
4.1) inside one stage with start time `ti`, duration `d`, start target `g` and
end target `g1`: `g + (g1 - g) * (t - ti) / d`, rounded to the nearest integer
(a half rounds up) and clamped to `[0, max g g1]`. -/
def interpolate (g g1 : Int) (ti d t : ℚ) : Int :=
  clamp 0 (max g g1) (round ((g : ℚ) + ((g1 : ℚ) - (g : ℚ)) * (t - ti) / d))

/-- Modelled from the spec: the Scheduler's target concurrency at elapsed time
`t` (section 4.1).  `g` is the target at the start of the remaining stages
(0 at run start) and `ti` their start time.  A time before the end of the first
remaining stage is interpolated inside it; a zero-duration stage contains no
time and so jumps the target; after the last stage the target is the final
stage's end value. -/
def target (g : Int) (ti : ℚ) : List Stage → ℚ → Int
  | [], _ => g
  | s :: rest, t =>
    if t < ti + s.duration then interpolate g s.target ti s.duration t
    else target s.target (ti + s.duration) rest t

/-- The largest target of a stage list, starting from the start target `g`. -/
def maxTarget (g : Int) : List Stage → Int
  | [] => g
  | s :: rest => max g (maxTarget s.target rest)

/-- The Scheduler applied to an `options` object at elapsed time `t` seconds;
`none` if the stage list does not parse. -/
def targetAt (o : Options) (t : ℚ) : Option Int :=
  match parseStages o.stages with
  | some stages => some (target 0 0 stages t)
  | none => none

end K6

namespace Script

open K6

/-- The exported `options` constant. -/
def options : Options :=
  { stages := [
      { duration := "10s", target := 50 },
      { duration := "30s", target := 50 },
      { duration := "10s", target := 0 } ] }

/-- The URL requested by every iteration. -/
def url : String := "http://localhost:8080/search?q=tech"

/-- The object literal passed to `check`: the two named predicates. -/
def checks : CheckSet :=
  [ ("is status 200", fun r => decide (r.status = some 200)),
    ("is fast", fun r => decide (r.timings.duration < 200)) ]

/-- The exported default function: one iteration of a virtual user. -/
def default : Runtime Unit := do
  let res ← http.get "http://localhost:8080/search?q=tech"
  let _ ← check res [
    ("is status 200", fun r => decide (r.status = some 200)),
    ("is fast", fun r => decide (r.timings.duration < 200)) ]
  sleep 1

end Script

namespace K6

/-- The check results of one iteration whose request returns `r`. -/
def iterationChecks (r : Response) : List CheckResult :=
  match run Script.default (fun _ => .ok r) with
  | .ok (_, tr) => emittedChecks tr
  | .error _ => []

/-- Number of check results recorded under `name` over the iterations whose
requests return the responses `rs`. -/
def checkCount (name : String) (rs : List Response) : Nat :=
  ((rs.map iterationChecks).flatten.filter fun c => decide (c.name = name)).length

/-- Number of passed check results recorded under `name` over the iterations
whose requests return the responses `rs`. -/
def passCount (name : String) (rs : List Response) : Nat :=
  ((rs.map iterationChecks).flatten.filter fun c =>
    decide (c.name = name) && c.passed).length

/-! ## Shared lemmas -/

theorem run_default_eq (host : Host) :
    run Script.default host =
      match host Script.url with
      | .ok r =>
        .ok ((), [Effect.httpGet Script.url, Effect.check r Script.checks, Effect.sleep 1])
      | .error e => .error e := by
  simp only [run, Script.default, http.get, Script.url]
  simp only [bind, ReaderT.bind, StateT.bind, StateT.run, modify, modifyGet,
    MonadStateOf.modifyGet, StateT.modifyGet, read, MonadReader.read, liftM, monadLift,
    MonadLift.monadLift, ReaderT.read, readThe, MonadReaderOf.read, pure, StateT.pure,
    Except.pure, Except.bind, StateT.lift, ReaderT.pure]
  cases host "http://localhost:8080/search?q=tech" <;> rfl

theorem run_default_ok (host : Host) (r : Response) (h : host Script.url = .ok r) :
    run Script.default host =
      .ok ((), [Effect.httpGet Script.url, Effect.check r Script.checks, Effect.sleep 1]) := by
  rw [run_default_eq, h]

theorem run_default_error (host : Host) (e : String) (h : host Script.url = .error e) :
    run Script.default host = .error e := by
  rw [run_default_eq, h]

theorem iterationChecks_eq (r : Response) :
    iterationChecks r =
      [ { name := "is status 200", passed := decide (r.status = some 200) },
        { name := "is fast", passed := decide (r.timings.duration < 200) } ] := rfl

theorem passedOf_status (r : Response) :
    passedOf "is status 200" (iterationChecks r) = some (decide (r.status = some 200)) := by
  simp [iterationChecks_eq, passedOf]

theorem passedOf_fast (r : Response) :
    passedOf "is fast" (iterationChecks r) = some (decide (r.timings.duration < 200)) := by
  simp [iterationChecks_eq, passedOf]

theorem parseStages_options :
    parseStages Script.options.stages = some [⟨10, 50⟩, ⟨30, 50⟩, ⟨10, 0⟩] := rfl

theorem targetAt_options (t : ℚ) :
    targetAt Script.options t = some (target 0 0 [⟨10, 50⟩, ⟨30, 50⟩, ⟨10, 0⟩] t) := by
  unfold targetAt
  rw [parseStages_options]

theorem clamp_bounds (lo hi x : Int) (h : lo ≤ hi) :
    lo ≤ clamp lo hi x ∧ clamp lo hi x ≤ hi := by
  unfold clamp
  exact ⟨le_max_left _ _, max_le h (min_le_left _ _)⟩

theorem clamp_eq_self (lo hi x : Int) (h1 : lo ≤ x) (h2 : x ≤ hi) : clamp lo hi x = x := by
  unfold clamp
  rw [min_eq_right h2, max_eq_right h1]

theorem le_maxTarget (g : Int) (stages : List Stage) : g ≤ maxTarget g stages := by
  cases stages with
  | nil => exact le_refl _
  | cons s rest => exact le_max_left _ _

/-- The Scheduler never leaves `[0, maxTarget]` when no target is negative. -/
theorem target_bounds (stages : List Stage) :
    ∀ (g : Int) (ti t : ℚ), 0 ≤ g → (∀ s ∈ stages, 0 ≤ s.target) →
      0 ≤ target g ti stages t ∧ target g ti stages t ≤ maxTarget g stages := by
  induction stages with
  | nil =>
    intro g ti t hg _
    exact ⟨hg, le_refl _⟩
  | cons s rest ih =>
    intro g ti t hg hs
    have hst : 0 ≤ s.target := hs s (List.mem_cons_self _ _)
    unfold target maxTarget
    by_cases hlt : t < ti + s.duration
    · rw [if_pos hlt]
      have hb := clamp_bounds 0 (max g s.target)
        (round ((g : ℚ) + ((s.target : ℚ) - (g : ℚ)) * (t - ti) / s.duration))
        (le_trans hg (le_max_left _ _))
      refine ⟨hb.1, le_trans hb.2 ?_⟩
      exact max_le_max (le_refl _) (le_maxTarget _ _)
    · rw [if_neg hlt]
      have hr := ih s.target (ti + s.duration) t hst
        (fun x hx => hs x (List.mem_cons_of_mem _ hx))
      exact ⟨hr.1, le_trans hr.2 (le_max_right _ _)⟩

theorem round_mem_of_mem (x : ℚ) (a b : Int) (h1 : (a : ℚ) ≤ x) (h2 : x ≤ (b : ℚ)) :
    a ≤ round x ∧ round x ≤ b := by
  rw [round_eq]
  constructor
  · exact Int.le_floor.mpr (by linarith)
  · exact Int.lt_add_one_iff.mp (Int.floor_lt.mpr (by push_cast; linarith))

theorem target_ramp_up (t : ℚ) (h0 : 0 ≤ t) (h1 : t < 10) :
    target 0 0 [⟨10, 50⟩, ⟨30, 50⟩, ⟨10, 0⟩] t = round (5 * t) := by
  have hlt : t < 0 + 10 := by linarith
  have harg : (((0 : Int) : ℚ) + (((50 : Int) : ℚ) - ((0 : Int) : ℚ)) * (t - 0) / 10) = 5 * t := by
    push_cast; ring
  have hb := round_mem_of_mem (5 * t) 0 50 (by push_cast; linarith) (by push_cast; linarith)
  simp only [target, if_pos hlt, interpolate]
  rw [harg]
  exact clamp_eq_self _ _ _ hb.1 (le_trans hb.2 (le_max_right _ _))

theorem target_hold (t : ℚ) (h0 : 10 ≤ t) (h1 : t < 40) :
    target 0 0 [⟨10, 50⟩, ⟨30, 50⟩, ⟨10, 0⟩] t = 50 := by
  have hn : ¬ t < 0 + 10 := by linarith
  have hlt : t < 0 + 10 + 30 := by linarith
  have harg : (((50 : Int) : ℚ) + (((50 : Int) : ℚ) - ((50 : Int) : ℚ)) * (t - (0 + 10)) / 30)
      = ((50 : Int) : ℚ) := by
    push_cast; ring
  simp only [target, if_neg hn, if_pos hlt, interpolate]
  rw [harg, round_intCast]
  rfl

theorem target_ramp_down (t : ℚ) (h0 : 40 ≤ t) (h1 : t < 50) :
    target 0 0 [⟨10, 50⟩, ⟨30, 50⟩, ⟨10, 0⟩] t = round (50 - 5 * (t - 40)) := by
  have hn : ¬ t < 0 + 10 := by linarith
  have hn2 : ¬ t < 0 + 10 + 30 := by linarith
  have hlt : t < 0 + 10 + 30 + 10 := by linarith
  have harg : (((50 : Int) : ℚ) + (((0 : Int) : ℚ) - ((50 : Int) : ℚ)) * (t - (0 + 10 + 30)) / 10)
      = 50 - 5 * (t - 40) := by
    push_cast; ring
  have hb := round_mem_of_mem (50 - 5 * (t - 40)) 0 50
    (by push_cast; linarith) (by push_cast; linarith)
  simp only [target, if_neg hn, if_neg hn2, if_pos hlt, interpolate]
  rw [harg]
  exact clamp_eq_self _ _ _ hb.1 (le_trans hb.2 (le_max_left _ _))

theorem target_after (t : ℚ) (h0 : 50 ≤ t) :
    target 0 0 [⟨10, 50⟩, ⟨30, 50⟩, ⟨10, 0⟩] t = 0 := by
  have hn : ¬ t < 0 + 10 := by linarith
  have hn2 : ¬ t < 0 + 10 + 30 := by linarith
  have hn3 : ¬ t < 0 + 10 + 30 + 10 := by linarith
  simp only [target, if_neg hn, if_neg hn2, if_neg hn3]

theorem checkCount_cons (name : String) (r : Response) (rs : List Response) :
    checkCount name (r :: rs) =
      ((iterationChecks r).filter fun c => decide (c.name = name)).length
        + checkCount name rs := by
  simp [checkCount, List.filter_append]

theorem passCount_cons (name : String) (r : Response) (rs : List Response) :
    passCount name (r :: rs) =
      ((iterationChecks r).filter fun c => decide (c.name = name) && c.passed).length
        + passCount name rs := by
  simp [passCount, List.filter_append]

theorem checkCount_status (rs : List Response) : checkCount "is status 200" rs = rs.length := by
  induction rs with
  | nil => rfl
  | cons r rs ih =>
    rw [checkCount_cons, ih, iterationChecks_eq]
    simp [List.filter]
    omega

theorem checkCount_fast (rs : List Response) : checkCount "is fast" rs = rs.length := by
  induction rs with
  | nil => rfl
  | cons r rs ih =>
    rw [checkCount_cons, ih, iterationChecks_eq]
    simp [List.filter]
    omega

/-! ## The claims -/

/-- C1: the two named checks of the default iteration function are the reference
predicates.  For every response `r`, the iteration records a result under
`is status 200` that passes exactly when `r.status` is 200, and a result under
`is fast` that passes exactly when `r.timings.duration` is strictly below 200;
a duration of exactly 200 fails.  The same holds of the predicates themselves,
as listed under these names in the object passed to `check`. -/
theorem checks_are_reference_predicates (r : Response) :
    (∃ b, passedOf "is status 200" (iterationChecks r) = some b ∧
      (b = true ↔ r.status = some 200)) ∧
    (∃ b, passedOf "is fast" (iterationChecks r) = some b ∧
      (b = true ↔ r.timings.duration < 200)) ∧
    (r.timings.duration = 200 → passedOf "is fast" (iterationChecks r) = some false) ∧
    (∀ p, ("is status 200", p) ∈ Script.checks → (p r = true ↔ r.status = some 200)) ∧
    (∀ p, ("is fast", p) ∈ Script.checks → (p r = true ↔ r.timings.duration < 200)) := by
  refine ⟨⟨_, passedOf_status r, by simp⟩, ⟨_, passedOf_fast r, by simp⟩, ?_, ?_, ?_⟩
  · intro h
    rw [passedOf_fast, h]
    simp
  · intro p hp
    simp only [Script.checks, List.mem_cons, Prod.mk.injEq, List.mem_singleton,
      List.not_mem_nil, or_false] at hp
    rcases hp with ⟨_, e⟩ | ⟨e, _⟩
    · subst e; simp
    · exact absurd e (by decide)
  · intro p hp
    simp only [Script.checks, List.mem_cons, Prod.mk.injEq, List.mem_singleton,
      List.not_mem_nil, or_false] at hp
    rcases hp with ⟨e, _⟩ | ⟨_, e⟩
    · exact absurd e (by decide)
    · subst e; simp

/-- C1 at a response with status 200 and a duration of exactly 200 ms. -/
theorem checks_are_reference_predicates_witness :
    passedOf "is fast"
      (iterationChecks { status := some 200, timings := { duration := 200 }, body := "",
                         error := none }) = some false :=
  (checks_are_reference_predicates
    { status := some 200, timings := { duration := 200 }, body := "", error := none }).2.2.1 rfl

/-- C2: for every response returned by the request, one call of the default
function returns normally after exactly three runtime calls, in this order: one
HTTP GET to `http://localhost:8080/search?q=tech`, one `check` of that same
response with the two named predicates, one `sleep` of 1 second. -/
theorem default_effect_sequence (host : Host) (r : Response)
    (h : host "http://localhost:8080/search?q=tech" = .ok r) :
    run Script.default host =
      .ok ((), [ Effect.httpGet "http://localhost:8080/search?q=tech",
                 Effect.check r
                   [ ("is status 200", fun r => decide (r.status = some 200)),
                     ("is fast", fun r => decide (r.timings.duration < 200)) ],
                 Effect.sleep 1 ]) :=
  run_default_ok host r h

/-- C2 at a host answering every request with status 200 in 50 ms. -/
theorem default_effect_sequence_witness :
    run Script.default
        (fun _ => .ok { status := some 200, timings := { duration := 50 }, body := "ok",
                        error := none }) =
      .ok ((), [ Effect.httpGet "http://localhost:8080/search?q=tech",
                 Effect.check
                   { status := some 200, timings := { duration := 50 }, body := "ok",
                     error := none }
                   [ ("is status 200", fun r => decide (r.status = some 200)),
                     ("is fast", fun r => decide (r.timings.duration < 200)) ],
                 Effect.sleep 1 ]) :=
  default_effect_sequence _ _ rfl

/-- C3: the Scheduler's piecewise-linear target applied to the script's
`options.stages` (start target 0, then 10 s to 50, 30 s to 50, 10 s to 0) is
`round (5 * t)` on `[0, 10]`, 50 on `[10, 40]` and `round (50 - 5 * (t - 40))` on
`[40, 50]` (`t` in seconds); in particular it is 0 at 0, 50 at 10 and at 40, and
0 at 50. -/
theorem options_target_profile :
    (∀ t : ℚ, 0 ≤ t → t ≤ 10 → targetAt Script.options t = some (round (5 * t))) ∧
    (∀ t : ℚ, 10 ≤ t → t ≤ 40 → targetAt Script.options t = some 50) ∧
    (∀ t : ℚ, 40 ≤ t → t ≤ 50 →
      targetAt Script.options t = some (round (50 - 5 * (t - 40)))) ∧
    targetAt Script.options 0 = some 0 ∧
    targetAt Script.options 10 = some 50 ∧
    targetAt Script.options 40 = some 50 ∧
    targetAt Script.options 50 = some 0 := by
  have up : ∀ t : ℚ, 0 ≤ t → t ≤ 10 →
      targetAt Script.options t = some (round (5 * t)) := by
    intro t h0 h1
    rw [targetAt_options]
    rcases lt_or_eq_of_le h1 with h | h
    · rw [target_ramp_up t h0 h]
    · subst h
      rw [target_hold 10 (le_refl _) (by norm_num)]
      have e : (5 : ℚ) * 10 = ((50 : Int) : ℚ) := by norm_num
      rw [e, round_intCast]
  have hold : ∀ t : ℚ, 10 ≤ t → t ≤ 40 → targetAt Script.options t = some 50 := by
    intro t h0 h1
    rw [targetAt_options]
    rcases lt_or_eq_of_le h1 with h | h
    · rw [target_hold t h0 h]
    · subst h
      rw [target_ramp_down 40 (le_refl _) (by norm_num)]
      have e : (50 : ℚ) - 5 * (40 - 40) = ((50 : Int) : ℚ) := by norm_num
      rw [e, round_intCast]
  have down : ∀ t : ℚ, 40 ≤ t → t ≤ 50 →
      targetAt Script.options t = some (round (50 - 5 * (t - 40))) := by
    intro t h0 h1
    rw [targetAt_options]
    rcases lt_or_eq_of_le h1 with h | h
    · rw [target_ramp_down t h0 h]
    · subst h
      rw [target_after 50 (le_refl _)]
      have e : (50 : ℚ) - 5 * (50 - 40) = ((0 : Int) : ℚ) := by norm_num
      rw [e, round_intCast]
  refine ⟨up, hold, down, ?_, hold 10 (le_refl _) (by norm_num),
    hold 40 (by norm_num) (le_refl _), ?_⟩
  · rw [up 0 (le_refl _) (by norm_num)]
    have e : (5 : ℚ) * 0 = ((0 : Int) : ℚ) := by norm_num
    rw [e, round_intCast]
  · rw [targetAt_options, target_after 50 (le_refl _)]

/-- C3 at 1/3 s (ramp up, 5/3 rounds to 2), 25 s (hold) and 47 s (ramp down). -/
theorem options_target_profile_witness :
    targetAt Script.options (1 / 3) = some (round ((5 : ℚ) * (1 / 3))) ∧
    round ((5 : ℚ) * (1 / 3)) = 2 ∧
    targetAt Script.options 25 = some 50 ∧
    targetAt Script.options 47 = some (round ((50 : ℚ) - 5 * (47 - 40))) ∧
    round ((50 : ℚ) - 5 * (47 - 40)) = 15 :=
  ⟨options_target_profile.1 (1 / 3) (by norm_num) (by norm_num),
   by norm_num [round_eq, Int.floor_eq_iff],
   options_target_profile.2.1 25 (by norm_num) (by norm_num),
   options_target_profile.2.2.1 47 (by norm_num) (by norm_num),
   by norm_num [round_eq, Int.floor_eq_iff]⟩

/-- C4: for the script's `options.stages` the largest target across all stages
is 50, and at every elapsed time `t ≥ 0` the target concurrency is defined and
lies in `[0, 50]`; the bound 50 is attained (at 10 s).  The clamp makes the
bound hold at every `t`, so the proof does not use `0 ≤ t`. -/
theorem options_target_bounded (t : ℚ) (_ht : 0 ≤ t) :
    (parseStages Script.options.stages).map (maxTarget 0) = some 50 ∧
    (∃ n, targetAt Script.options t = some n ∧ 0 ≤ n ∧ n ≤ 50) ∧
    (∃ t0 : ℚ, 0 ≤ t0 ∧ targetAt Script.options t0 = some 50) := by
  have hmax : maxTarget 0 [⟨10, 50⟩, ⟨30, 50⟩, ⟨10, 0⟩] = 50 := by decide
  refine ⟨?_, ?_, ⟨10, by norm_num, ?_⟩⟩
  · rw [parseStages_options]
    exact congrArg some hmax
  · refine ⟨_, targetAt_options t, ?_⟩
    have hb := target_bounds [⟨10, 50⟩, ⟨30, 50⟩, ⟨10, 0⟩] 0 0 t (le_refl _)
      (by
        intro s hs
        simp only [List.mem_cons, List.mem_singleton, List.not_mem_nil, or_false] at hs
        rcases hs with h | h | h <;> subst h <;> decide)
    rw [hmax] at hb
    exact hb
  · rw [targetAt_options, target_hold 10 (le_refl _) (by norm_num)]

/-- C4 at 7 s. -/
theorem options_target_bounded_witness :
    (0 : ℚ) ≤ 7 ∧
    (parseStages Script.options.stages).map (maxTarget 0) = some 50 ∧
    (∃ n, targetAt Script.options 7 = some n ∧ 0 ≤ n ∧ n ≤ 50) ∧
    (∃ t0 : ℚ, 0 ≤ t0 ∧ targetAt Script.options t0 = some 50) :=
  ⟨by norm_num, options_target_bounded 7 (by norm_num)⟩

/-- C5: the outcome of `is fast` depends only on latency: two responses with the
same `timings.duration` get the same `is fast` result, whatever their status. -/
theorem fast_independent_of_status (r1 r2 : Response)
    (h : r1.timings.duration = r2.timings.duration) :
    passedOf "is fast" (iterationChecks r1) = passedOf "is fast" (iterationChecks r2) ∧
    (passedOf "is fast" (iterationChecks r1) = some true ↔
      passedOf "is fast" (iterationChecks r2) = some true) := by
  have e : passedOf "is fast" (iterationChecks r1) = passedOf "is fast" (iterationChecks r2) := by
    rw [passedOf_fast, passedOf_fast, h]
  exact ⟨e, by rw [e]⟩

/-- C5 at a status 500 and a status 200 response, both of 50 ms. -/
theorem fast_independent_of_status_witness :
    passedOf "is fast"
        (iterationChecks { status := some 500, timings := { duration := 50 }, body := "",
                           error := none }) =
      passedOf "is fast"
        (iterationChecks { status := some 200, timings := { duration := 50 }, body := "ok",
                           error := none }) :=
  (fast_independent_of_status
    { status := some 500, timings := { duration := 50 }, body := "", error := none }
    { status := some 200, timings := { duration := 50 }, body := "ok", error := none }
    rfl).1

/-- C6: when the target host returns 500 for all requests, `is status 200`
shows 0% pass: over any finite sequence of responses all of status 500, whatever
their durations, one `is status 200` result is recorded per response and none of
them passes. -/
theorem status_500_never_passes (rs : List Response)
    (h : ∀ r ∈ rs, r.status = some 500) :
    passCount "is status 200" rs = 0 ∧ checkCount "is status 200" rs = rs.length := by
  refine ⟨?_, checkCount_status rs⟩
  induction rs with
  | nil => rfl
  | cons r rs ih =>
    have hr : r.status = some 500 := h r (List.mem_cons_self _ _)
    rw [passCount_cons, ih (fun x hx => h x (List.mem_cons_of_mem _ hx)), iterationChecks_eq]
    simp [List.filter, hr]

/-- C6 at two status 500 responses, one fast (50 ms) and one slow (300 ms). -/
theorem status_500_never_passes_witness :
    passCount "is status 200"
        [ { status := some 500, timings := { duration := 50 }, body := "", error := none },
          { status := some 500, timings := { duration := 300 }, body := "", error := none } ]
      = 0 ∧
    checkCount "is status 200"
        [ { status := some 500, timings := { duration := 50 }, body := "", error := none },
          { status := some 500, timings := { duration := 300 }, body := "", error := none } ]
      = 2 :=
  status_500_never_passes
    [ { status := some 500, timings := { duration := 50 }, body := "", error := none },
      { status := some 500, timings := { duration := 300 }, body := "", error := none } ]
    (by
      intro r hr
      simp only [List.mem_cons, List.mem_singleton, List.not_mem_nil, or_false] at hr
      rcases hr with e | e <;> subst e <;> rfl)

/-- C7: when the target host always returns 200 in 50 ms, both checks have a
100% pass rate: over any non-empty finite sequence of responses all of status
200 and duration 50, `is status 200` and `is fast` pass on every response, so
for each check the number of passes equals the (positive) number of results. -/
theorem all_200_in_50ms_all_pass (rs : List Response) (hne : rs ≠ [])
    (h : ∀ r ∈ rs, r.status = some 200 ∧ r.timings.duration = 50) :
    (∀ r ∈ rs, passedOf "is status 200" (iterationChecks r) = some true ∧
      passedOf "is fast" (iterationChecks r) = some true) ∧
    passCount "is status 200" rs = checkCount "is status 200" rs ∧
    passCount "is fast" rs = checkCount "is fast" rs ∧
    0 < checkCount "is status 200" rs ∧ 0 < checkCount "is fast" rs := by
  have hlen : 0 < rs.length := List.length_pos.mpr hne
  have hs : passCount "is status 200" rs = rs.length := by
    clear hne hlen
    induction rs with
    | nil => rfl
    | cons r rs ih =>
      have hr := h r (List.mem_cons_self _ _)
      rw [passCount_cons, ih (fun x hx => h x (List.mem_cons_of_mem _ hx)), iterationChecks_eq]
      simp [List.filter, hr.1]
      omega
  have hf : passCount "is fast" rs = rs.length := by
    clear hne hlen hs
    induction rs with
    | nil => rfl
    | cons r rs ih =>
      have hr := h r (List.mem_cons_self _ _)
      rw [passCount_cons, ih (fun x hx => h x (List.mem_cons_of_mem _ hx)), iterationChecks_eq]
      have hfast : decide ((50 : ℚ) < 200) = true := by norm_num
      simp [List.filter, hr.2, hfast]
      omega
  refine ⟨?_, ?_, ?_, ?_, ?_⟩
  · intro r hr
    have hr2 := h r hr
    rw [passedOf_status, passedOf_fast, hr2.1, hr2.2]
    exact ⟨by simp, by norm_num⟩
  · rw [hs, checkCount_status]
  · rw [hf, checkCount_fast]
  · rw [checkCount_status]; exact hlen
  · rw [checkCount_fast]; exact hlen

/-- C7 at a sequence of two responses of status 200 and 50 ms. -/
theorem all_200_in_50ms_all_pass_witness :
    passCount "is status 200"
        [ { status := some 200, timings := { duration := 50 }, body := "a", error := none },
          { status := some 200, timings := { duration := 50 }, body := "b", error := none } ]
      = checkCount "is status 200"
        [ { status := some 200, timings := { duration := 50 }, body := "a", error := none },
          { status := some 200, timings := { duration := 50 }, body := "b", error := none } ] ∧
    passCount "is fast"
        [ { status := some 200, timings := { duration := 50 }, body := "a", error := none },
          { status := some 200, timings := { duration := 50 }, body := "b", error := none } ]
      = checkCount "is fast"
        [ { status := some 200, timings := { duration := 50 }, body := "a", error := none },
          { status := some 200, timings := { duration := 50 }, body := "b", error := none } ] :=
  have w := all_200_in_50ms_all_pass
    [ { status := some 200, timings := { duration := 50 }, body := "a", error := none },
      { status := some 200, timings := { duration := 50 }, body := "b", error := none } ]
    (List.cons_ne_nil _ _)
    (by
      intro r hr
      simp only [List.mem_cons, List.mem_singleton, List.not_mem_nil, or_false] at hr
      rcases hr with e | e <;> subst e <;> exact ⟨rfl, rfl⟩)
  ⟨w.2.1, w.2.2.1⟩

/-- C8: every predicate is run regardless of earlier failures.  The Check Engine
emits one result per predicate, in order, carrying the predicate's name and the
value that predicate takes on the response; so for every response, including
one on which `is status 200` fails, one iteration emits exactly two check
results: `is status 200` with the value of `r.status = 200`, then `is fast` with
the value of `r.timings.duration < 200`.  The `is fast` result is the one the
same response would get with status 200, on which `is status 200` passes. -/
theorem every_predicate_runs (r : Response) :
    (∀ (val : Response) (sets : CheckSet),
      (evaluate val sets).map CheckResult.name = sets.map Prod.fst) ∧
    (iterationChecks r).map CheckResult.name = ["is status 200", "is fast"] ∧
    passedOf "is status 200" (iterationChecks { r with status := some 200 }) = some true ∧
    passedOf "is fast" (iterationChecks r) =
      passedOf "is fast" (iterationChecks { r with status := some 200 }) ∧
    (∀ (val : Response) (sets : CheckSet),
      (evaluate val sets).map (fun c => (c.name, c.passed)) =
        sets.map (fun c => (c.1, c.2 val))) ∧
    iterationChecks r =
      [ { name := "is status 200", passed := decide (r.status = some 200) },
        { name := "is fast", passed := decide (r.timings.duration < 200) } ] ∧
    (r.status ≠ some 200 →
      passedOf "is status 200" (iterationChecks r) = some false ∧
      (passedOf "is fast" (iterationChecks r) = some true ↔ r.timings.duration < 200) ∧
      (passedOf "is fast" (iterationChecks r) = some false ↔
        ¬ r.timings.duration < 200)) := by
  refine ⟨?_, ?_, ?_, ?_, ?_, iterationChecks_eq r, ?_⟩
  · intro val sets
    simp [evaluate]
  · rw [iterationChecks_eq]
    rfl
  · rw [passedOf_status]
    simp
  · rw [passedOf_fast, passedOf_fast]
  · intro val sets
    simp [evaluate]
  · intro hst
    rw [passedOf_status, passedOf_fast]
    refine ⟨by simp [hst], by simp, by simp⟩

/-- C8 at a response of status 500: `is status 200` fails and `is fast` is still
evaluated, passing at 50 ms and failing at 300 ms. -/
theorem every_predicate_runs_witness :
    iterationChecks { status := some 500, timings := { duration := 50 }, body := "",
                      error := none } =
      [ { name := "is status 200", passed := false },
        { name := "is fast", passed := true } ] ∧
    iterationChecks { status := some 500, timings := { duration := 300 }, body := "",
                      error := none } =
      [ { name := "is status 200", passed := false },
        { name := "is fast", passed := false } ] :=
  ⟨((every_predicate_runs
      { status := some 500, timings := { duration := 50 }, body := "",
        error := none }).2.2.2.2.2.1).trans (by norm_num),
   ((every_predicate_runs
      { status := some 500, timings := { duration := 300 }, body := "",
        error := none }).2.2.2.2.2.1).trans (by norm_num)⟩

/-- C9: a per-request network error neither crashes the iteration nor is retried
within it.  When the request returns a result that carries an error and no
status 200, the default function returns normally, its trace holds exactly one
HTTP request, `is status 200` is recorded as failed, and the last call is
`sleep(1)`. -/
theorem network_error_iteration (host : Host) (r : Response)
    (h : host "http://localhost:8080/search?q=tech" = .ok r)
    (_herr : r.error ≠ none) (hst : r.status ≠ some 200) :
    ∃ tr, run Script.default host = .ok ((), tr) ∧
      requestCount tr = 1 ∧
      passedOf "is status 200" (emittedChecks tr) = some false ∧
      tr.getLast? = some (Effect.sleep 1) := by
  refine ⟨_, run_default_ok host r h, rfl, ?_, rfl⟩
  have e : emittedChecks
      [Effect.httpGet Script.url, Effect.check r Script.checks, Effect.sleep 1]
      = [ { name := "is status 200", passed := decide (r.status = some 200) },
          { name := "is fast", passed := decide (r.timings.duration < 200) } ] := rfl
  rw [e]
  simp [passedOf, hst]

/-- C9 at a refused connection: no status, error set. -/
theorem network_error_iteration_witness :
    ∃ tr, run Script.default
        (fun _ => .ok { status := none, timings := { duration := 0 }, body := "",
                        error := some "connection refused" }) = .ok ((), tr) ∧
      requestCount tr = 1 ∧
      passedOf "is status 200" (emittedChecks tr) = some false ∧
      tr.getLast? = some (Effect.sleep 1) :=
  network_error_iteration _
    { status := none, timings := { duration := 0 }, body := "",
      error := some "connection refused" }
    rfl (by simp) (by simp)

/-- C10: the script's `options.stages` is a valid stage list.  It parses to a
non-empty list in which every stage has a strictly positive duration and a
non-negative target, the durations sum to 50 seconds, and the setup check for an
invalid stage list accepts it. -/
theorem options_stages_valid :
    ∃ stages, parseStages Script.options.stages = some stages ∧
      stages ≠ [] ∧
      (∀ s ∈ stages, 0 < s.duration ∧ 0 ≤ s.target) ∧
      (stages.map Stage.duration).sum = 50 ∧
      validateStages stages = .ok () := by
  refine ⟨_, parseStages_options, List.cons_ne_nil _ _, ?_, ?_, ?_⟩
  · intro s hs
    simp only [List.mem_cons, List.mem_singleton, List.not_mem_nil, or_false] at hs
    rcases hs with e | e | e <;> subst e <;> norm_num
  · norm_num
  · simp [validateStages]

end K6
